import Mathlib

/-!
Verification of the akd history-tree node and quorum node modules.

A shallow embedding, in Lean 4, of the code in
`akd/src/history_tree_node.rs` and `akd_quorum/src/node/mod.rs`,
together with theorems settling the frozen claims about that code.

Conventions of the embedding:
* machine integers are `Nat` (no overflow is relevant to any claim);
* storage is a partial map `NodeLabel → Option (HistoryTreeNode Hash)`;
* fallible Rust code becomes `Except`;
* a Rust `panic!` site is marked by the distinguished error
  `AkdError.rustPanic`, so that reachability of panics can be reasoned
  about;
* the unbounded `async_recursion` of `insert_single_leaf_helper`
  becomes recursion on an explicit `fuel`, with a distinguished error
  `AkdError.outOfFuel` for exhaustion (an embedding artifact, shown
  unreachable for sufficient fuel on well-formed trees);
* the hash function is abstract: `merge`, `hashLabel`, `emptyNodeHash`
  and `zeroHash` are parameters, mirroring the `H: Hasher` type
  parameter of the source.
-/

namespace AkdSpec

/-! ## Labels

Modelled from the spec: `NodeLabel` (a 256-bit value stored as 32 bytes
plus a significant-bit length) and its longest-common-prefix operation
live in `akd/src/node_state.rs`, which is not part of the sources under
review; §3.1 of the specification defines them.  `Left = bit 0`,
`Right = bit 1`; bit `i` of a label is the `i`-th leading bit, i.e. bit
`7 - i % 8` of byte `i / 8`. -/

structure NodeLabel where
  /-- 32 bytes, big-endian bit significance within each byte -/
  val : List Nat
  /-- how many leading bits are significant -/
  len : Nat
deriving DecidableEq, Repr

namespace NodeLabel

/-- Modelled from the spec: `NodeLabel::new` stores the raw value and length. -/
def new (val : List Nat) (len : Nat) : NodeLabel := ⟨val, len⟩

/-- The `i`-th leading bit of the label's 256-bit value. -/
def bitAt (l : NodeLabel) (i : Nat) : Bool :=
  (l.val.getD (i / 8) 0).testBit (7 - i % 8)

/-- The designated root label: all-zero value, length 0. -/
def root : NodeLabel := ⟨List.replicate 32 0, 0⟩

end NodeLabel

/-- Length of the longest common prefix of two labels, scanning from bit
`i` with `fuel` comparisons remaining. -/
def lcpLenAux (a b : NodeLabel) : Nat → Nat → Nat
  | 0, i => i
  | fuel + 1, i =>
    if a.bitAt i = b.bitAt i then lcpLenAux a b fuel (i + 1) else i

/-- Modelled from the spec: number of leading bits on which `a` and `b`
agree, capped at `min a.len b.len`. -/
def lcpLen (a b : NodeLabel) : Nat :=
  lcpLenAux a b (min a.len b.len) 0

/-- Keep only the top `k` bits of a byte (big-endian bit significance). -/
def truncByte (b k : Nat) : Nat :=
  if 8 ≤ k then b % 256 else (b % 256) >>> (8 - k) <<< (8 - k)

/-- Modelled from the spec: the canonical label formed by the first `k`
bits of `l` (bits beyond `k` zeroed). -/
def NodeLabel.truncate (l : NodeLabel) (k : Nat) : NodeLabel :=
  { val := (List.range 32).map fun j =>
      if (j + 1) * 8 ≤ k then l.val.getD j 0 % 256
      else if k ≤ j * 8 then 0
      else truncByte (l.val.getD j 0) (k - j * 8)
    len := k }

/-- Modelled from the spec: the direction of `x` relative to its prefix
`p` — `none` exactly when `p = x`, otherwise the bit of `x` immediately
after `p` (`0` = Left, `1` = Right). -/
def getDir (x p : NodeLabel) : Option Nat :=
  if x = p then none else some (if x.bitAt p.len then 1 else 0)

/-- Modelled from the spec: `self.get_longest_common_prefix_and_dirs(other)`
returns `(lcp, dir_other, dir_self)`. -/
def getLongestCommonPrefixAndDirs (selfL otherL : NodeLabel) :
    NodeLabel × Option Nat × Option Nat :=
  let p := selfL.truncate (lcpLen selfL otherL)
  (p, getDir otherL p, getDir selfL p)

/-! ## Node types (history_tree_node.rs lines 21–42) -/

/-- The three node kinds of the history tree. -/
inductive NodeType where
  | Leaf
  | Root
  | Interior
deriving DecidableEq, Repr

/-- `NodeType::from_u8`: `1 → Leaf`, `2 → Root`, `3 → Interior`, and the
catch-all `_ → Leaf`. -/
def NodeType.fromU8 (code : Nat) : NodeType :=
  match code with
  | 1 => .Leaf
  | 2 => .Root
  | 3 => .Interior
  | _ => .Leaf

/-! ## Node key serialization (history_tree_node.rs lines 91–112) -/

/-- Modelled from the spec: the numeric value of the
`StorageType::HistoryTreeNode` tag byte (the enum lives outside the
sources under review; only its use as a fixed tag byte matters). -/
def storageTypeHistoryTreeNode : Nat := 1

/-- `u32::to_le_bytes`. -/
def u32ToLeBytes (n : Nat) : List Nat :=
  [n % 256, n / 256 % 256, n / 256 ^ 2 % 256, n / 256 ^ 3 % 256]

/-- `u32::from_le_bytes` on a 4-byte list (bytes are values `< 256`). -/
def u32FromLeBytes (l : List Nat) : Nat :=
  l.foldr (fun b acc => b + 256 * acc) 0

/-- `get_full_binary_key_id`: tag byte, then the label length as 4
little-endian bytes, then the 32 value bytes. -/
def getFullBinaryKeyId (k : NodeLabel) : List Nat :=
  storageTypeHistoryTreeNode :: (u32ToLeBytes k.len ++ k.val)

/-- `key_from_full_binary`: fails on fewer than 37 bytes or a wrong tag
byte, otherwise reads bytes 1–4 as the length and bytes 5–36 as the
value. -/
def keyFromFullBinary (bin : List Nat) : Except String NodeLabel :=
  if bin.length < 37 then
    .error "Not enough bytes to form a proper key"
  else if bin.getD 0 0 ≠ storageTypeHistoryTreeNode then
    .error "Not a history tree node key"
  else
    .ok (NodeLabel.new ((bin.drop 5).take 32) (u32FromLeBytes ((bin.drop 1).take 4)))

/-! ## The history tree node (history_tree_node.rs lines 56–113) -/

/-- `HistoryTreeNode`, parameterised over the 256-bit hash type of the
configured hasher (the source's `[u8; 32]` hash field holds a digest of
that hasher, converted with `to_digest`/`from_digest`, which the model
elides). -/
structure HistoryTreeNode (Hash : Type) where
  label : NodeLabel
  last_epoch : Nat
  birth_epoch : Nat
  parent : NodeLabel
  node_type : NodeType
  left_child : Option NodeLabel
  right_child : Option NodeLabel
  hash : Hash
deriving Repr, DecidableEq

/-- The node store: the `Storage` backend restricted to
`HistoryTreeNode` records, keyed by label.  A `none` result models
`StorageError::NotFound`. -/
def Store (Hash : Type) := NodeLabel → Option (HistoryTreeNode Hash)

/-- The error kinds reachable from the embedded code, plus two
embedding markers: `rustPanic` for a `panic!` site in the source and
`outOfFuel` for exhaustion of the recursion fuel. -/
inductive AkdError where
  /-- `StorageError::NotFound` -/
  | storageNotFound : NodeLabel → AkdError
  /-- `HistoryTreeNodeError::NoDirection` -/
  | noDirection : NodeLabel → AkdError
  /-- `HistoryTreeNodeError::NoChildAtEpoch(epoch, direction)` -/
  | noChildAtEpoch : Nat → Nat → AkdError
  /-- marks a `panic!` site of the source -/
  | rustPanic : AkdError
  /-- embedding artifact: recursion fuel exhausted -/
  | outOfFuel : AkdError
deriving DecidableEq, Repr

/-- The abstract hasher `H`, with the derived constants the tree code
uses: `H::merge` on pairs, `hash_label`, the fixed
`utils::empty_node_hash` constant, and the all-zero placeholder
`[0u8; 32]` a fresh interior node starts with. -/
structure Hasher (Hash : Type) where
  merge : Hash → Hash → Hash
  hashLabel : NodeLabel → Hash
  emptyNodeHash : Hash
  zeroHash : Hash

section Tree

variable {Hash : Type}

/-- `write_to_storage`: persist a node record under its label. -/
def writeNode (store : Store Hash) (n : HistoryTreeNode Hash) : Store Hash :=
  fun l => if l = n.label then some n else store l

/-- `get_from_storage` (lines 161–183): read a node; if the stored
`last_epoch` is ahead of the current epoch, override it with
`epoch_lte(label, current_epoch)`.  `epochLte` is the storage
backend's `get_epoch_lte_epoch` index. -/
def getFromStorage (epochLte : NodeLabel → Nat → Nat) (store : Store Hash)
    (key : NodeLabel) (currentEpoch : Nat) : Except AkdError (HistoryTreeNode Hash) :=
  match store key with
  | none => .error (.storageNotFound key)
  | some node =>
    if currentEpoch < node.last_epoch then
      .ok { node with last_epoch := epochLte key currentEpoch }
    else
      .ok node

/-- `get_child_label` (lines 477–488): the slot for `Some(0)`/`Some(1)`;
any other direction hits the `panic!`. -/
def getChildLabel (node : HistoryTreeNode Hash) (dir : Option Nat) :
    Except AkdError (Option NodeLabel) :=
  if dir = some 0 then .ok node.left_child
  else if dir = some 1 then .ok node.right_child
  else .error .rustPanic

/-- `get_child_state` (lines 534–560): `Direction::None` is a
`NoDirection` error; an empty slot, or a slot whose label misses in
storage (`StorageError::NotFound`), both yield `Ok(None)`. -/
def getChildState (store : Store Hash) (node : HistoryTreeNode Hash)
    (direction : Option Nat) : Except AkdError (Option (HistoryTreeNode Hash)) :=
  match direction with
  | none => .error (.noDirection node.label)
  | some _ => do
    let childLabel ← getChildLabel node direction
    match childLabel with
    | some cl => .ok (store cl)
    | none => .ok none

/-- `optional_child_state_to_hash` (lines 627–634): a present child
contributes its stored hash, an absent one the fixed empty-node
constant. -/
def optionalChildStateToHash (Hs : Hasher Hash)
    (input : Option (HistoryTreeNode Hash)) : Hash :=
  match input with
  | some childState => childState.hash
  | none => Hs.emptyNodeHash

/-- `get_direction` (lines 507–521): which slot of `self` holds
`node`'s label, left first. -/
def getDirection (self node : HistoryTreeNode Hash) : Option Nat :=
  if self.left_child = some node.label then some 0
  else if self.right_child = some node.label then some 1
  else none

/-- `set_child` (lines 434–463): write the slot for the direction
(`panic!` on `None`), re-parent the child, stamp both `last_epoch`s,
persist parent then child.  Returns the mutated pair and the store. -/
def setChild (store : Store Hash) (self child : HistoryTreeNode Hash)
    (direction : Option Nat) (epoch : Nat) :
    Except AkdError (HistoryTreeNode Hash × HistoryTreeNode Hash × Store Hash) :=
  match direction with
  | none => .error .rustPanic
  | some d =>
    let self := if d = 0 then { self with left_child := some child.label } else self
    let self := if d = 1 then { self with right_child := some child.label } else self
    let child := { child with parent := self.label }
    let self := { self with last_epoch := epoch }
    let child := { child with last_epoch := epoch }
    .ok (self, child, writeNode (writeNode store self) child)

/-- `update_node_hash` (lines 386–429): stamp `last_epoch`, then for a
leaf merge the stored raw-value hash with the label hash, and for any
other kind merge the two child hashes (read from storage, absent ↦
empty-node constant) and the label hash; finally persist. -/
def updateNodeHash (Hs : Hasher Hash) (store : Store Hash)
    (node : HistoryTreeNode Hash) (epoch : Nat) :
    Except AkdError (HistoryTreeNode Hash × Store Hash) :=
  let node := { node with last_epoch := epoch }
  if node.node_type = NodeType.Leaf then
    let node' := { node with hash := Hs.merge node.hash (Hs.hashLabel node.label) }
    .ok (node', writeNode store node')
  else do
    let leftChildState ← getChildState store node (some 0)
    let rightChildState ← getChildState store node (some 1)
    let childHashes := Hs.merge (optionalChildStateToHash Hs leftChildState)
      (optionalChildStateToHash Hs rightChildState)
    let node' := { node with hash := Hs.merge childHashes (Hs.hashLabel node.label) }
    .ok (node', writeNode store node')

/-- `HistoryTreeNode::new` (lines 133–152): `last_epoch = birth_epoch`. -/
def HistoryTreeNode.mk' (label parent : NodeLabel) (nodeType : NodeType)
    (birthEpoch : Nat) (leftChild rightChild : Option NodeLabel) (hash : Hash) :
    HistoryTreeNode Hash :=
  { label := label, birth_epoch := birthEpoch, last_epoch := birthEpoch,
    parent := parent, node_type := nodeType,
    left_child := leftChild, right_child := rightChild, hash := hash }

/-- `insert_single_leaf_helper` (lines 244–382).  The result carries the
final store, the mutated `self`, the number of `*num_nodes += 1`
increments, and the trace of labels passed to `update_node_hash`, in
call order. -/
def insertSingleLeafHelper (Hs : Hasher Hash) (epochLte : NodeLabel → Nat → Nat) :
    Nat → Store Hash → HistoryTreeNode Hash → HistoryTreeNode Hash → Nat → Bool →
    Except AkdError (Store Hash × HistoryTreeNode Hash × Nat × List NodeLabel)
  | 0, _, _, _, _, _ => .error .outOfFuel
  | fuel + 1, store, self, newLeaf, epoch, hashing => do
    let (lcsLabel, dirLeaf, dirSelf) :=
      getLongestCommonPrefixAndDirs self.label newLeaf.label
    -- `is_root` special case (lines 256–279): `*num_nodes += 1` happens
    -- on entry; the early return fires only when the slot is empty.
    let rootResult ←
      if self.node_type = NodeType.Root then do
        let childState ← getChildState store self dirLeaf
        if childState.isNone then do
          let (self₁, leaf₁, store₁) ← setChild store self newLeaf dirLeaf epoch
          if hashing then do
            let (leaf₂, store₂) ← updateNodeHash Hs store₁ leaf₁ epoch
            let (self₂, store₃) ← updateNodeHash Hs store₂ self₁ epoch
            pure (some (store₃, self₂, 1, [leaf₂.label, self₂.label]))
          else
            let store₂ := writeNode store₁ leaf₁
            let store₃ := writeNode store₂ self₁
            pure (some (store₃, self₁, 1, ([] : List NodeLabel)))
        else pure none
      else pure none
    let rootIncrement := if self.node_type = NodeType.Root then 1 else 0
    match rootResult with
    | some result => .ok result
    | none =>
      match dirSelf with
      | some _ => do
        -- split case (lines 283–344): push `self` down below a fresh
        -- interior node labelled with the longest common prefix.
        let parent ← getFromStorage epochLte store self.parent epoch
        let selfDirInParent := getDirection parent self
        let newNode : HistoryTreeNode Hash :=
          HistoryTreeNode.mk' lcsLabel parent.label NodeType.Interior epoch
            none none Hs.zeroHash
        let (parent₁, newNode₁, store₁) ← setChild store parent newNode selfDirInParent epoch
        let (newNode₂, leaf₁, store₂) ← setChild store₁ newNode₁ newLeaf dirLeaf epoch
        let (newNode₃, self₁, store₃) ← setChild store₂ newNode₂ self dirSelf epoch
        if hashing then do
          let (leaf₂, store₄) ← updateNodeHash Hs store₃ leaf₁ epoch
          -- `self` is intentionally not re-hashed here (line 333 is
          -- commented out in the source).
          let (newNode₄, store₅) ← updateNodeHash Hs store₄ newNode₃ epoch
          let (parent₂, store₆) ← updateNodeHash Hs store₅ parent₁ epoch
          .ok (store₆, self₁, rootIncrement + 1,
            [leaf₂.label, newNode₄.label, parent₂.label])
        else
          let store₄ := writeNode store₃ leaf₁
          let store₅ := writeNode store₄ newNode₃
          let store₆ := writeNode store₅ parent₁
          .ok (store₆, self₁, rootIncrement + 1, [])
      | none => do
        -- descend case (lines 347–380): recurse into the child in the
        -- leaf's direction; its absence is the `NoChildAtEpoch` failure.
        let childNode ← getChildState store self dirLeaf
        match childNode with
        | some child => do
          let (store', _child', n, trace) ←
            insertSingleLeafHelper Hs epochLte fuel store child newLeaf epoch hashing
          if hashing then do
            let self' ← getFromStorage epochLte store' self.label epoch
            if self'.node_type ≠ NodeType.Leaf then do
              let (self'', store'') ← updateNodeHash Hs store' self' epoch
              .ok (store'', self'', rootIncrement + n, trace ++ [self''.label])
            else
              .ok (store', self', rootIncrement + n, trace)
          else do
            let self' ← getFromStorage epochLte store' self.label epoch
            .ok (store', self', rootIncrement + n, trace)
        | none =>
          match dirLeaf with
          | some d => .error (.noChildAtEpoch epoch d)
          | none => .error .rustPanic  -- `dir_leaf.unwrap()`

/-- `insert_single_leaf` (lines 218–227): insert with hashing. -/
def insertSingleLeaf (Hs : Hasher Hash) (epochLte : NodeLabel → Nat → Nat)
    (fuel : Nat) (store : Store Hash) (self newLeaf : HistoryTreeNode Hash)
    (epoch : Nat) :
    Except AkdError (Store Hash × HistoryTreeNode Hash × Nat × List NodeLabel) :=
  insertSingleLeafHelper Hs epochLte fuel store self newLeaf epoch true

/-- `insert_leaf` (lines 230–239): insert without hashing. -/
def insertLeaf (Hs : Hasher Hash) (epochLte : NodeLabel → Nat → Nat)
    (fuel : Nat) (store : Store Hash) (self newLeaf : HistoryTreeNode Hash)
    (epoch : Nat) :
    Except AkdError (Store Hash × HistoryTreeNode Hash × Nat × List NodeLabel) :=
  insertSingleLeafHelper Hs epochLte fuel store self newLeaf epoch false

end Tree

/-! ## The quorum node (akd_quorum/src/node/mod.rs)

The quorum member is embedded as pure transition functions on its
status and backlog queue.  The cryptographer, storage and transport are
oracles passed as function parameters; clock instants are `Nat`
seconds.  Types: `Hash` the hasher digest, `Proof` the append-only
proof, `Shard` an encrypted quorum-key shard payload, `Commitment` a
signed epoch commitment, `PK` a public key.  Node ids and contact
information are opaque `Nat`s. -/

namespace Quorum

/-- `DISTRIBUTED_PROCESSING_TIMEOUT_SEC = 60 * 10` (line 53). -/
def distributedProcessingTimeoutSec : Nat := 60 * 10

/-- `akd::proof_structs::AppendOnlyProof`, with each node reduced to its
label and hash. -/
structure AppendOnlyProof (Hash : Type) where
  unchanged_nodes : List (NodeLabel × Hash)
  inserted : List (NodeLabel × Hash)
deriving DecidableEq, Repr

/-- `inter_node::VerifyRequest`. -/
structure VerifyRequest (Hash Proof : Type) where
  previous_hash : Hash
  new_hash : Hash
  append_only_proof : Proof
  epoch : Nat

/-- `inter_node::VerifyResponse`. -/
structure VerifyResponse (Hash Shard : Type) where
  verified_hash : Hash
  encrypted_quorum_key_shard : Option Shard

/-- `inter_node::AddNodeInit`. -/
structure AddNodeInit (PK : Type) where
  public_key : PK
  contact_info : Nat

/-- `inter_node::AddNodeTestResult`. -/
structure AddNodeTestResult (Shard : Type) where
  contact_info : Nat
  encrypted_quorum_key_shard : Option Shard

/-- `inter_node::RemoveNodeInit`. -/
structure RemoveNodeInit where
  node_id : Nat

/-- `inter_node::RemoveNodeTestResult`. -/
structure RemoveNodeTestResult (Shard : Type) where
  offending_member : Nat
  encrypted_quorum_key_shard : Option Shard

/-- `storage::MemberInformation`. -/
structure MemberInformation (PK : Type) where
  node_id : Nat
  public_key : PK
  contact_information : Nat

/-- `inter_node::AddNodeResult`. -/
structure AddNodeResult (Shard PK : Type) where
  encrypted_quorum_key_shard : Option Shard
  new_member : MemberInformation PK

/-- `inter_node::NewNodeTest`. -/
structure NewNodeTest (Hash Proof PK : Type) where
  previous_hash : Hash
  new_hash : Hash
  test_proof : Proof
  requesters_public_key : PK

/-- `node_states::LeaderState` as used by `mod.rs` (the defining file is
not under review; each substate carries its `started_at` instant, the
request, and the responses/pending map, exactly as destructured by
`mod.rs`).  `HashMap`s become association lists with distinct keys. -/
inductive LeaderState (Hash Proof Shard PK : Type) where
  | processingVerification (startedAt : Nat) (request : VerifyRequest Hash Proof)
      (responses : List (Nat × Option (VerifyResponse Hash Shard)))
  | processingAddition (startedAt : Nat) (request : AddNodeInit PK)
      (responses : List (Nat × Option (AddNodeTestResult Shard)))
  | addingMember (startedAt : Nat) (request : AddNodeInit PK)
      (pendingShards : List (Nat × Shard))
  | processingRemoval (startedAt : Nat) (request : RemoveNodeInit)
      (responses : List (Nat × Option (RemoveNodeTestResult Shard)))
  | removingMember (startedAt : Nat) (request : Nat)
      (pendingShards : List (Nat × Shard))

/-- `node_states::WorkerState` as used by `mod.rs`.  `Verifying` carries
no instant (and is accordingly ignored by the timer). -/
inductive WorkerState (Hash Proof Shard PK : Type) where
  | verifying (leader : Nat) (request : VerifyRequest Hash Proof)
  | testingAddMember (startedAt : Nat) (leader : Nat)
      (request : AddNodeInit PK) (shouldPass : Bool)
  | waitingOnMemberAddResult (startedAt : Nat) (request : AddNodeInit PK)
  | testingRemoveMember (startedAt : Nat) (leader : Nat)
      (request : RemoveNodeInit) (shouldPass : Bool)
  | waitingOnMemberRemoveResult (startedAt : Nat) (request : RemoveNodeInit)

/-- `node_states::NodeStatus`. -/
inductive NodeStatus (Hash Proof Shard PK : Type) where
  | ready
  | leading (state : LeaderState Hash Proof Shard PK)
  | following (state : WorkerState Hash Proof Shard PK)

/-- `PublicNodeMessage`: the three externally initiated operations. -/
inductive PublicNodeMessage (Hash Proof PK : Type) where
  | verify (request : VerifyRequest Hash Proof)
  | enroll (publicKey : PK) (contactInfo : Nat)
  | remove (nodeId : Nat)

/-- The subset of `InterNodeMessage` payloads that reach the backlog
queue or the handlers modelled here. -/
inductive InterNodeMessage (Hash Proof Shard PK : Type) where
  | verifyRequest (r : VerifyRequest Hash Proof)
  | verifyResponse (r : VerifyResponse Hash Shard)
  | addNodeInit (r : AddNodeInit PK)
  | addNodeTestResult (r : AddNodeTestResult Shard)
  | addNodeResult (r : AddNodeResult Shard PK)
  | removeNodeInit (r : RemoveNodeInit)
  | interNodeAck (ok : Bool)
  | timerTickMsg

/-- `NodeMessage`: a public message or an inter-node message with its
originator, as stored in `NodeState::message_queue`. -/
inductive NodeMessage (Hash Proof Shard PK : Type) where
  | publicMsg (m : PublicNodeMessage Hash Proof PK)
  | internal (fromId : Nat) (m : InterNodeMessage Hash Proof Shard PK)

section Node

variable {Hash Proof Shard Commitment PK : Type} [DecidableEq Hash]

/-- `itertools` `combinations(k)`: all `k`-element sublists, emitted in
lexicographic order of source positions. -/
def combinations {α : Type} : Nat → List α → List (List α)
  | 0, _ => [[]]
  | _ + 1, [] => []
  | k + 1, x :: xs => (combinations k xs).map (x :: ·) ++ combinations (k + 1) xs

/-- The shards of the map entries that are `Some` responses carrying a
`Some` shard (the `positives` of `try_generate_commitment`,
lines 1434–1441). -/
def positiveShards (map : List (Nat × Option (VerifyResponse Hash Shard))) :
    List Shard :=
  map.filterMap fun p => p.2.bind fun r => r.encrypted_quorum_key_shard

/-- `HashMap::insert` on an association list with distinct keys. -/
def upsert {β : Type} (k : Nat) (v : β) (map : List (Nat × β)) : List (Nat × β) :=
  if map.any (·.1 = k) then map.map (fun p => if p.1 = k then (k, v) else p)
  else map ++ [(k, v)]

/-- The two completion checks at the tail of `try_generate_commitment`
(lines 1478–1499): past the distributed-processing timeout, or all
`group_size` responses received, the operation is finished with no
commitment; otherwise keep collecting. -/
def timeoutChecks (groupSize now startedAt : Nat)
    (map : List (Nat × Option (VerifyResponse Hash Shard))) :
    Except Unit (Option Commitment × Bool) :=
  if distributedProcessingTimeoutSec < now - startedAt then .ok (none, true)
  else if map.length = groupSize then .ok (none, true)
  else .ok (none, false)

/-- `try_generate_commitment` (lines 1424–1500).  `shardsRequired` is
`Crypto::shards_required`, `gen` is
`crypto.generate_commitment(shards, epoch, previous_hash, new_hash)`
with errors collapsed to `none`.  The `Option Commitment` of the result
is the commitment persisted through `save_commitment` (if any); the
`Bool` is the function's own result ("operation finished").  An
`Except.error` is the bubbled-up `last_err` when every combination of a
sufficient shard set failed. -/
def tryGenerateCommitment (shardsRequired : Nat → Nat)
    (gen : List Shard → Nat → Hash → Hash → Option Commitment)
    (groupSize now startedAt : Nat) (request : VerifyRequest Hash Proof)
    (map : List (Nat × Option (VerifyResponse Hash Shard))) :
    Except Unit (Option Commitment × Bool) :=
  let numRequiredShards := shardsRequired groupSize
  let positives : List Shard := positiveShards map
  if numRequiredShards ≤ positives.length then
    match (combinations numRequiredShards positives).findSome?
        (fun c => gen c request.epoch request.previous_hash request.new_hash) with
    | some commitment => .ok (some commitment, true)
    | none =>
      -- every attempted combination failed; `last_err` is set exactly
      -- when at least one combination was attempted
      if (combinations numRequiredShards positives).isEmpty then
        timeoutChecks groupSize now startedAt map
      else .error ()
  else timeoutChecks groupSize now startedAt map

/-- `verify_response_impl` (lines 1310–1352): in
`Leading(ProcessingVerification)` a response whose `verified_hash`
matches the request's `new_hash` is added to a copy of the response map
and `try_generate_commitment` is attempted (on success the leader
becomes Ready); a mismatching response is pushed onto the backlog; any
other status ignores the response. -/
def verifyResponseImpl (shardsRequired : Nat → Nat)
    (gen : List Shard → Nat → Hash → Hash → Option Commitment)
    (groupSize now : Nat) (status : NodeStatus Hash Proof Shard PK)
    (queue : List (NodeMessage Hash Proof Shard PK))
    (fromId : Nat) (resp : VerifyResponse Hash Shard) :
    Except Unit (NodeStatus Hash Proof Shard PK ×
      List (NodeMessage Hash Proof Shard PK) × Option Commitment) :=
  match status with
  | .leading (.processingVerification startedAt request responseMap) =>
    if resp.verified_hash = request.new_hash then
      let newMap := upsert fromId (some resp) responseMap
      match (tryGenerateCommitment shardsRequired gen groupSize now startedAt request newMap :
          Except Unit (Option Commitment × Bool)) with
      | .error e => .error e
      | .ok (saved, true) => .ok (.ready, queue, saved)
      | .ok (saved, false) =>
        .ok (.leading (.processingVerification startedAt request responseMap),
          queue, saved)
    else
      .ok (.leading (.processingVerification startedAt request responseMap),
        queue ++ [.internal fromId (.verifyResponse resp)], none)
  | other => .ok (other, queue, none)

/-- `public_verify_impl` (lines 551–667), restricted to its effect on
the status and the backlog: when busy, the public message is pushed
onto the backlog; when Ready, the node becomes
`Leading(ProcessingVerification(now, request, {}))`.  (The spawned
self-verification task and the broadcast that follow in the Ready
branch touch neither the queue nor — except through
`verify_response_impl`-equivalent logic — the status.) -/
def publicVerifyImpl (now : Nat) (status : NodeStatus Hash Proof Shard PK)
    (queue : List (NodeMessage Hash Proof Shard PK))
    (request : VerifyRequest Hash Proof) :
    NodeStatus Hash Proof Shard PK × List (NodeMessage Hash Proof Shard PK) :=
  match status with
  | .leading _ | .following _ =>
    (status, queue ++ [.publicMsg (.verify request)])
  | .ready => (.leading (.processingVerification now request []), queue)

/-- `public_enroll_impl` (lines 669–713), same restriction. -/
def publicEnrollImpl (now : Nat) (status : NodeStatus Hash Proof Shard PK)
    (queue : List (NodeMessage Hash Proof Shard PK))
    (publicKey : PK) (contactInfo : Nat) :
    NodeStatus Hash Proof Shard PK × List (NodeMessage Hash Proof Shard PK) :=
  match status with
  | .leading _ | .following _ =>
    (status, queue ++ [.publicMsg (.enroll publicKey contactInfo)])
  | .ready =>
    (.leading (.processingAddition now
      { public_key := publicKey, contact_info := contactInfo } []), queue)

/-- `public_remove_impl` (lines 715–757), same restriction. -/
def publicRemoveImpl (now : Nat) (status : NodeStatus Hash Proof Shard PK)
    (queue : List (NodeMessage Hash Proof Shard PK)) (nodeId : Nat) :
    NodeStatus Hash Proof Shard PK × List (NodeMessage Hash Proof Shard PK) :=
  match status with
  | .leading _ | .following _ =>
    (status, queue ++ [.publicMsg (.remove nodeId)])
  | .ready =>
    (.leading (.processingRemoval now { node_id := nodeId } []), queue)

/-- `generate_test` (lines 447–466): both hashes are `H::hash(&[0u8; 32])`,
the proof is empty, and the returned `should_pass` is the literal
`false`. -/
def generateTest (hashBytes : List Nat → Hash) (publicKey : PK) :
    Bool × NewNodeTest Hash (AppendOnlyProof Hash) PK :=
  (false,
    { new_hash := hashBytes (List.replicate 32 0),
      previous_hash := hashBytes (List.replicate 32 0),
      requesters_public_key := publicKey,
      test_proof := { unchanged_nodes := [], inserted := [] } })

/-- `timer_tick` (lines 1587–1694): every `Leading` substate, and every
`Following` substate that carries an instant, transitions to Ready once
`started_at` is at least the distributed-processing timeout in the
past; everything else is left unchanged. -/
def timerTick (now : Nat) (status : NodeStatus Hash Proof Shard PK) :
    NodeStatus Hash Proof Shard PK :=
  match status with
  | .leading lState =>
    match lState with
    | .processingVerification tick _ _ =>
      if distributedProcessingTimeoutSec ≤ now - tick then .ready else status
    | .processingAddition tick _ _ =>
      if distributedProcessingTimeoutSec ≤ now - tick then .ready else status
    | .addingMember tick _ _ =>
      if distributedProcessingTimeoutSec ≤ now - tick then .ready else status
    | .processingRemoval tick _ _ =>
      if distributedProcessingTimeoutSec ≤ now - tick then .ready else status
    | .removingMember tick _ _ =>
      if distributedProcessingTimeoutSec ≤ now - tick then .ready else status
  | .following wState =>
    match wState with
    | .testingAddMember startedAt _ _ _ =>
      if distributedProcessingTimeoutSec ≤ now - startedAt then .ready else status
    | .waitingOnMemberAddResult startedAt _ =>
      if distributedProcessingTimeoutSec ≤ now - startedAt then .ready else status
    | .testingRemoveMember startedAt _ _ _ =>
      if distributedProcessingTimeoutSec ≤ now - startedAt then .ready else status
    | .waitingOnMemberRemoveResult startedAt _ =>
      if distributedProcessingTimeoutSec ≤ now - startedAt then .ready else status
    | .verifying _ _ => status
  | .ready => status

/-- The `started_at` instant a `Leading` substate carries. -/
def LeaderState.startedAt : LeaderState Hash Proof Shard PK → Nat
  | .processingVerification t _ _ => t
  | .processingAddition t _ _ => t
  | .addingMember t _ _ => t
  | .processingRemoval t _ _ => t
  | .removingMember t _ _ => t

end Node

end Quorum

/-! ## Spec-side hashing rule (for the refinement claims)

These definitions follow the wording of §4.1.3 of the specification,
to be compared against the embedded `update_node_hash`. -/

section SpecHash

variable {Hash : Type}

/-- The spec's `child_hash`: an absent child (no slot, or a slot whose
label has no record in the store) contributes the fixed empty-node
constant, a present one its hash. -/
def specChildHash (Hs : Hasher Hash) (store : Store Hash)
    (slot : Option NodeLabel) : Hash :=
  match slot with
  | none => Hs.emptyNodeHash
  | some cl =>
    match store cl with
    | some c => c.hash
    | none => Hs.emptyNodeHash

/-- The spec's hashing rule: a leaf hashes
`merge(raw_value_hash, hash_label(label))`; a non-leaf hashes
`merge(merge(L, R), hash_label(label))` with `L`, `R` the child
hashes. -/
def specNodeHash (Hs : Hasher Hash) (store : Store Hash)
    (node : HistoryTreeNode Hash) : Hash :=
  match node.node_type with
  | NodeType.Leaf => Hs.merge node.hash (Hs.hashLabel node.label)
  | _ =>
    Hs.merge
      (Hs.merge (specChildHash Hs store node.left_child)
        (specChildHash Hs store node.right_child))
      (Hs.hashLabel node.label)

/-- A label whose bits beyond its length are zero (every label the tree
constructs is of this shape; `NodeLabel::root()` and the VRF output
labels are canonical). -/
def NodeLabel.canonical (l : NodeLabel) : Prop := l.truncate l.len = l

/-- The §3.2 shape invariants of a stored tree that the insertion code
relies on: records are keyed by their own label; labels are canonical
256-bit prefixes; a Root record has the empty label; a stored child is
strictly deeper than its parent; and a stored non-root whose parent
record is present appears in one of that parent's child slots. -/
def wfStore (store : Store Hash) : Prop :=
  ∀ l n, store l = some n →
    n.label = l ∧ l.len ≤ 256 ∧ l.canonical ∧
    (n.node_type = NodeType.Root → l.len = 0) ∧
    (∀ cl c, (n.left_child = some cl ∨ n.right_child = some cl) →
      store cl = some c → l.len < cl.len) ∧
    (n.node_type ≠ NodeType.Root → ∀ p, store n.parent = some p →
      (p.left_child = some l ∨ p.right_child = some l))

/-- The failure modes the specification allows: success, a storage
error, or the structural `NoChildAtEpoch`. -/
def okOrTreeError {α : Type} : Except AkdError α → Prop
  | .ok _ => True
  | .error (.storageNotFound _) => True
  | .error (.noChildAtEpoch _ _) => True
  | .error _ => False

end SpecHash

/-- A concrete toy hasher over `Nat`, used to evaluate witnesses. -/
def natHasher : Hasher Nat :=
  { merge := fun a b => 2 * a + 3 * b + 1
    hashLabel := fun l => l.len + 5
    emptyNodeHash := 7
    zeroHash := 0 }

/-- Concrete inputs for the C3 witness: a root whose left child is the
leaf `00₂`; the leaf `01₂` is inserted, splitting below the root. -/
def c3SelfLabel : NodeLabel := ⟨List.replicate 32 0, 2⟩

def c3LeafLabel : NodeLabel := ⟨64 :: List.replicate 31 0, 2⟩

def c3Self : HistoryTreeNode Nat :=
  { label := c3SelfLabel, last_epoch := 1, birth_epoch := 1,
    parent := NodeLabel.root, node_type := .Leaf,
    left_child := none, right_child := none, hash := 11 }

def c3Leaf : HistoryTreeNode Nat :=
  { label := c3LeafLabel, last_epoch := 2, birth_epoch := 2,
    parent := NodeLabel.root, node_type := .Leaf,
    left_child := none, right_child := none, hash := 13 }

def c3Parent : HistoryTreeNode Nat :=
  { label := NodeLabel.root, last_epoch := 1, birth_epoch := 0,
    parent := NodeLabel.root, node_type := .Root,
    left_child := some c3SelfLabel, right_child := none, hash := 5 }

def c3Store : Store Nat := fun l =>
  if l = NodeLabel.root then some c3Parent
  else if l = c3SelfLabel then some c3Self else none

/-- Concrete inputs for the C6 witness: a lone (empty) root and a fresh
256-bit leaf. -/
def c6Root : HistoryTreeNode Nat :=
  { label := NodeLabel.root, last_epoch := 0, birth_epoch := 0,
    parent := NodeLabel.root, node_type := .Root,
    left_child := none, right_child := none, hash := 3 }

def c6Store : Store Nat := fun l =>
  if l = NodeLabel.root then some c6Root else none

def c6Leaf : HistoryTreeNode Nat :=
  { label := ⟨List.replicate 32 0, 256⟩, last_epoch := 1, birth_epoch := 1,
    parent := NodeLabel.root, node_type := .Leaf,
    left_child := none, right_child := none, hash := 9 }

namespace Quorum

section QuorumDefs

variable {Hash Proof Shard : Type}

/-- Every `Some` response in a leader verification map agrees with the
request's `new_hash`. -/
def responsesMatch (request : VerifyRequest Hash Proof)
    (map : List (Nat × Option (VerifyResponse Hash Shard))) : Prop :=
  ∀ p ∈ map, ∀ r, p.2 = some r → r.verified_hash = request.new_hash

end QuorumDefs

end Quorum

/-! ## Lemmas and claim theorems -/

section SpecHashLemmas

variable {Hash : Type}

/-- `get_child_state` with an explicit `Some(0)`/`Some(1)` direction
never fails and returns the slot's record (dangling labels read as
absent). -/
lemma getChildState_left (store : Store Hash) (node : HistoryTreeNode Hash) :
    getChildState store node (some 0) = .ok (node.left_child.bind store) := by
  cases h : node.left_child <;>
    simp only [getChildState, getChildLabel, h, Option.bind] <;> rfl

lemma getChildState_right (store : Store Hash) (node : HistoryTreeNode Hash) :
    getChildState store node (some 1) = .ok (node.right_child.bind store) := by
  cases h : node.right_child <;>
    simp only [getChildState, getChildLabel, h, Option.bind] <;> rfl

lemma optionalChildStateToHash_bind (Hs : Hasher Hash) (store : Store Hash)
    (slot : Option NodeLabel) :
    optionalChildStateToHash Hs (slot.bind store) = specChildHash Hs store slot := by
  cases slot with
  | none => rfl
  | some cl => cases h : store cl <;> simp [optionalChildStateToHash, specChildHash, h, Option.bind]

/-- Characterization of `update_node_hash`: it always succeeds, stamps
`last_epoch`, replaces the hash by the spec's rule, leaves every other
field alone, and persists exactly the updated record. -/
lemma updateNodeHash_eq (Hs : Hasher Hash) (store : Store Hash)
    (node : HistoryTreeNode Hash) (epoch : Nat) :
    updateNodeHash Hs store node epoch =
      .ok ({ node with last_epoch := epoch, hash := specNodeHash Hs store node },
        writeNode store { node with last_epoch := epoch, hash := specNodeHash Hs store node }) := by
  obtain ⟨lab, le, be, par, nt, lc, rc, hsh⟩ := node
  cases nt <;>
    simp [updateNodeHash, specNodeHash, getChildState_left, getChildState_right,
      bind, Except.bind, optionalChildStateToHash_bind]

end SpecHashLemmas

/-! ## Claims -/



/-- C1: `update_node_hash` computes the hash per the spec's rule: a
`Leaf` hashes `merge(stored_raw_value_hash, hash_label(label))`; a
`Root` or `Interior` node hashes `merge(merge(L, R), hash_label(label))`
where `L` and `R` are the child hashes read from storage and an absent
child contributes the fixed empty-node constant. -/
theorem update_node_hash_follows_spec {Hash : Type} (Hs : Hasher Hash)
    (store : Store Hash) (node : HistoryTreeNode Hash) (epoch : Nat) :
    ∃ n', updateNodeHash Hs store node epoch = .ok (n', writeNode store n') ∧
      n'.last_epoch = epoch ∧ n'.label = node.label ∧
      (node.node_type = NodeType.Leaf →
        n'.hash = Hs.merge node.hash (Hs.hashLabel node.label)) ∧
      (node.node_type ≠ NodeType.Leaf →
        n'.hash = Hs.merge
          (Hs.merge (specChildHash Hs store node.left_child)
            (specChildHash Hs store node.right_child))
          (Hs.hashLabel node.label)) := by
  refine ⟨{ node with last_epoch := epoch, hash := specNodeHash Hs store node },
    updateNodeHash_eq Hs store node epoch, rfl, rfl, ?_, ?_⟩
  · intro h
    simp [specNodeHash, h]
  · intro h
    cases hnt : node.node_type <;> simp [specNodeHash, hnt] <;> simp [hnt] at h

/-- C9: a child slot whose label has no record in storage reads as
`Ok(None)` from `get_child_state` (not an error), and
`update_node_hash` therefore hashes a dangling child as the fixed
empty-node constant. -/
theorem dangling_child_reads_absent {Hash : Type} (Hs : Hasher Hash)
    (store : Store Hash) (node : HistoryTreeNode Hash) (epoch : Nat)
    (cl : NodeLabel) (d : Nat) (hd : d = 0 ∨ d = 1)
    (hslot : (if d = 0 then node.left_child else node.right_child) = some cl)
    (hmiss : store cl = none) :
    getChildState store node (some d) = .ok none ∧
    specChildHash Hs store (if d = 0 then node.left_child else node.right_child) =
      Hs.emptyNodeHash ∧
    (node.node_type ≠ NodeType.Leaf →
      ∃ n', updateNodeHash Hs store node epoch = .ok (n', writeNode store n') ∧
        n'.hash = Hs.merge
          (Hs.merge (specChildHash Hs store node.left_child)
            (specChildHash Hs store node.right_child))
          (Hs.hashLabel node.label)) := by
  refine ⟨?_, ?_, ?_⟩
  · rcases hd with rfl | rfl
    · rw [if_pos rfl] at hslot
      rw [getChildState_left, hslot]
      simp [Option.bind, hmiss]
    · rw [if_neg (by norm_num)] at hslot
      rw [getChildState_right, hslot]
      simp [Option.bind, hmiss]
  · rcases hd with rfl | rfl
    · rw [if_pos rfl] at hslot ⊢
      rw [hslot]
      simp [specChildHash, hmiss]
    · rw [if_neg (by norm_num)] at hslot ⊢
      rw [hslot]
      simp [specChildHash, hmiss]
  · intro h
    refine ⟨{ node with last_epoch := epoch, hash := specNodeHash Hs store node },
      updateNodeHash_eq Hs store node epoch, ?_⟩
    cases hnt : node.node_type <;> simp [specNodeHash, hnt] <;> simp [hnt] at h

/-- Witness for C9: a node whose left slot names a label the store does
not contain. -/
theorem dangling_child_reads_absent_witness :
    (getChildState (fun _ => (none : Option (HistoryTreeNode Nat)))
        { label := NodeLabel.root, last_epoch := 0, birth_epoch := 0,
          parent := NodeLabel.root, node_type := NodeType.Root,
          left_child := some (NodeLabel.new (List.replicate 32 0) 1),
          right_child := none, hash := 0 } (some 0) = .ok none ∧
      specChildHash natHasher (fun _ => none)
        (if 0 = 0 then some (NodeLabel.new (List.replicate 32 0) 1) else none) =
        natHasher.emptyNodeHash ∧
      (({ label := NodeLabel.root, last_epoch := 0, birth_epoch := 0,
          parent := NodeLabel.root, node_type := NodeType.Root,
          left_child := some (NodeLabel.new (List.replicate 32 0) 1),
          right_child := none, hash := 0 } : HistoryTreeNode Nat).node_type ≠ NodeType.Leaf →
        ∃ n', updateNodeHash natHasher (fun _ => none)
            { label := NodeLabel.root, last_epoch := 0, birth_epoch := 0,
              parent := NodeLabel.root, node_type := NodeType.Root,
              left_child := some (NodeLabel.new (List.replicate 32 0) 1),
              right_child := none, hash := 0 } 3 =
            .ok (n', writeNode (fun _ => none) n') ∧
          n'.hash = natHasher.merge
            (natHasher.merge
              (specChildHash natHasher (fun _ => none)
                (some (NodeLabel.new (List.replicate 32 0) 1)))
              (specChildHash natHasher (fun _ => none) none))
            (natHasher.hashLabel NodeLabel.root))) :=
  dangling_child_reads_absent natHasher (fun _ => none)
    { label := NodeLabel.root, last_epoch := 0, birth_epoch := 0,
      parent := NodeLabel.root, node_type := NodeType.Root,
      left_child := some (NodeLabel.new (List.replicate 32 0) 1),
      right_child := none, hash := 0 } 3
    (NodeLabel.new (List.replicate 32 0) 1) 0 (Or.inl rfl) rfl rfl

/-- C10: `NodeType::from_u8` is total and never rejects its input: it
returns `Leaf` for 1, `Root` for 2, `Interior` for 3, and `Leaf` for
every other byte, so an invalid node-kind tag silently deserializes as
a `Leaf`. -/
theorem nodeType_fromU8_total (b : Nat) :
    NodeType.fromU8 b =
      if b = 1 then NodeType.Leaf
      else if b = 2 then NodeType.Root
      else if b = 3 then NodeType.Interior
      else NodeType.Leaf := by
  rcases b with _ | _ | _ | _ | n <;> simp [NodeType.fromU8]

/-- C8: `get_full_binary_key_id` produces exactly 37 bytes laid out as
`tag_u8 || label_length_u32_le || label_bytes_32`; decoding with
`key_from_full_binary` round-trips, and decoding fails exactly when the
buffer is shorter than 37 bytes or its first byte is not the
`HistoryTreeNode` tag. -/
theorem nodeKey_binary_layout_roundtrip (k : NodeLabel)
    (hval : k.val.length = 32) (hlen : k.len < 2 ^ 32) :
    (getFullBinaryKeyId k).length = 37 ∧
    getFullBinaryKeyId k = storageTypeHistoryTreeNode :: (u32ToLeBytes k.len ++ k.val) ∧
    keyFromFullBinary (getFullBinaryKeyId k) = .ok k ∧
    (∀ bin : List Nat, (∃ l, keyFromFullBinary bin = .ok l) ↔
      (37 ≤ bin.length ∧ bin.getD 0 0 = storageTypeHistoryTreeNode)) := by
  refine ⟨?_, rfl, ?_, ?_⟩
  · simp [getFullBinaryKeyId, u32ToLeBytes, hval]
  · have hlength : (getFullBinaryKeyId k).length = 37 := by
      simp [getFullBinaryKeyId, u32ToLeBytes, hval]
    have hdrop : ((getFullBinaryKeyId k).drop 5).take 32 = k.val := by
      simp [getFullBinaryKeyId, u32ToLeBytes, List.drop_append_of_le_length,
        List.take_of_length_le, hval, List.drop]
    have htake : ((getFullBinaryKeyId k).drop 1).take 4 = u32ToLeBytes k.len := by
      simp [getFullBinaryKeyId, u32ToLeBytes, List.take_append_of_le_length, List.drop]
    have hfromle : u32FromLeBytes (u32ToLeBytes k.len) = k.len := by
      simp only [u32ToLeBytes, u32FromLeBytes, List.foldr]
      omega
    simp only [keyFromFullBinary, hlength, hdrop, htake, hfromle]
    norm_num [getFullBinaryKeyId, NodeLabel.new]
  · intro bin
    constructor
    · rintro ⟨l, hl⟩
      by_cases h37 : bin.length < 37
      · simp [keyFromFullBinary, h37] at hl
      · by_cases htag : bin.getD 0 0 = storageTypeHistoryTreeNode
        · exact ⟨by omega, htag⟩
        · rw [List.getD_eq_getD_get?, List.get?_eq_getElem?] at htag
          simp [keyFromFullBinary, h37, htag, List.get?_eq_getElem?] at hl
    · rintro ⟨h37, htag⟩
      refine ⟨NodeLabel.new ((bin.drop 5).take 32) (u32FromLeBytes ((bin.drop 1).take 4)), ?_⟩
      rw [List.getD_eq_getD_get?, List.get?_eq_getElem?] at htag
      simp [keyFromFullBinary, htag, Nat.not_lt.mpr h37, List.get?_eq_getElem?]

/-- Witness for C8 at a concrete key: the all-zero label of length 5. -/
theorem nodeKey_binary_layout_roundtrip_witness :
    ((getFullBinaryKeyId (NodeLabel.new (List.replicate 32 0) 5)).length = 37 ∧
      getFullBinaryKeyId (NodeLabel.new (List.replicate 32 0) 5) =
        storageTypeHistoryTreeNode :: (u32ToLeBytes 5 ++ List.replicate 32 0) ∧
      keyFromFullBinary (getFullBinaryKeyId (NodeLabel.new (List.replicate 32 0) 5)) =
        .ok (NodeLabel.new (List.replicate 32 0) 5) ∧
      (∀ bin : List Nat, (∃ l, keyFromFullBinary bin = .ok l) ↔
        (37 ≤ bin.length ∧ bin.getD 0 0 = storageTypeHistoryTreeNode))) :=
  nodeKey_binary_layout_roundtrip (NodeLabel.new (List.replicate 32 0) 5)
    (by decide) (by norm_num [NodeLabel.new])

/-! ### Split-case lemmas (C3) -/

section SplitLemmas

variable {Hash : Type}

lemma getDir_some_ne {x p : NodeLabel} {k : Nat} (h : getDir x p = some k) : x ≠ p := by
  unfold getDir at h
  intro hEq
  rw [if_pos hEq] at h
  cases h

lemma getDir_some_val {x p : NodeLabel} {k : Nat} (h : getDir x p = some k) :
    k = 0 ∨ k = 1 := by
  unfold getDir at h
  by_cases hxp : x = p
  · rw [if_pos hxp] at h
    cases h
  · rw [if_neg hxp] at h
    by_cases hbit : x.bitAt p.len
    · rw [if_pos hbit] at h
      exact Or.inr (Option.some.inj h).symm
    · rw [if_neg hbit] at h
      exact Or.inl (Option.some.inj h).symm

/-- `set_child` with a `Some` direction always succeeds; the mutated
pair keeps its labels and kinds, the child is re-parented to `self`,
and both records are stamped and persisted. -/
lemma setChild_some (store : Store Hash) (self child : HistoryTreeNode Hash)
    (d epoch : Nat) :
    ∃ self' child',
      setChild store self child (some d) epoch =
        .ok (self', child', writeNode (writeNode store self') child') ∧
      self'.label = self.label ∧ self'.node_type = self.node_type ∧
      self'.parent = self.parent ∧ self'.hash = self.hash ∧
      self'.last_epoch = epoch ∧
      child'.label = child.label ∧ child'.node_type = child.node_type ∧
      child'.parent = self.label ∧ child'.hash = child.hash ∧
      child'.left_child = child.left_child ∧
      child'.right_child = child.right_child ∧
      child'.last_epoch = epoch := by
  by_cases h0 : d = 0
  · subst h0
    exact ⟨_, _, rfl, by simp [setChild]⟩
  · by_cases h1 : d = 1
    · subst h1
      exact ⟨_, _, rfl, by simp [setChild]⟩
    · exact ⟨_, _, rfl, by simp [setChild, h0, h1]⟩

end SplitLemmas

/-- C3: when the split case of `insert_single_leaf_helper` fires with
hashing enabled — at any non-root `self`, leaf or interior — the hash
updates happen in exactly the order (i) the new leaf, (ii) the new
interior node labelled with the longest common prefix, (iii) that
node's parent; and the pushed-down node `self` is not re-hashed at the
split site (in particular when `self` is a leaf). -/
theorem split_case_hash_order {Hash : Type} (Hs : Hasher Hash)
    (epochLte : NodeLabel → Nat → Nat) (fuel : Nat) (store : Store Hash)
    (self newLeaf parentNode : HistoryTreeNode Hash) (epoch : Nat) (d dl pd : Nat)
    (hnotroot : self.node_type ≠ NodeType.Root)
    (hsplit : (getLongestCommonPrefixAndDirs self.label newLeaf.label).2.2 = some d)
    (hdirleaf : (getLongestCommonPrefixAndDirs self.label newLeaf.label).2.1 = some dl)
    (hparent : store self.parent = some parentNode)
    (hple : parentNode.last_epoch ≤ epoch)
    (hpdir : getDirection parentNode self = some pd)
    (hne₁ : newLeaf.label ≠ self.label)
    (hne₂ : parentNode.label ≠ self.label) :
    ∃ store' self',
      insertSingleLeafHelper Hs epochLte (fuel + 1) store self newLeaf epoch true =
        .ok (store', self', 1,
          [newLeaf.label,
            (getLongestCommonPrefixAndDirs self.label newLeaf.label).1,
            parentNode.label]) ∧
      self.label ∉ ([newLeaf.label,
        (getLongestCommonPrefixAndDirs self.label newLeaf.label).1,
        parentNode.label] : List NodeLabel) := by
  have hself_ne_p : self.label ≠ (getLongestCommonPrefixAndDirs self.label newLeaf.label).1 :=
    getDir_some_ne hsplit
  have hsplit' : getDir self.label
      (self.label.truncate (lcpLen self.label newLeaf.label)) = some d := hsplit
  have hdirleaf' : getDir newLeaf.label
      (self.label.truncate (lcpLen self.label newLeaf.label)) = some dl := hdirleaf
  have hNR : (self.node_type = NodeType.Root) = False := by simp [hnotroot]
  simp only [insertSingleLeafHelper, getLongestCommonPrefixAndDirs, hNR, if_false,
    hsplit', hdirleaf']
  have hgfs : getFromStorage epochLte store self.parent epoch = .ok parentNode := by
    simp only [getFromStorage, hparent]
    rw [if_neg (Nat.not_lt.mpr hple)]
  simp only [if_true, hgfs, hpdir, bind, Except.bind, pure, Except.pure]
  obtain ⟨P₁, M₁, hsc₁, hP₁l, _, _, _, _, hM₁l, _, _, _, _, _, _⟩ :=
    setChild_some store parentNode
      (HistoryTreeNode.mk' (self.label.truncate (lcpLen self.label newLeaf.label))
        parentNode.label NodeType.Interior epoch none none Hs.zeroHash) pd epoch
  rw [hsc₁]
  dsimp only
  obtain ⟨M₂, L₁, hsc₂, hM₂l, _, _, _, _, hL₁l, _, _, _, _, _, _⟩ :=
    setChild_some (writeNode (writeNode store P₁) M₁) M₁ newLeaf dl epoch
  rw [hsc₂]
  dsimp only
  obtain ⟨M₃, S₁, hsc₃, hM₃l, _, _, _, _, hS₁l, _, _, _, _, _, _⟩ :=
    setChild_some (writeNode (writeNode (writeNode (writeNode store P₁) M₁) M₂) L₁) M₂
      self d epoch
  rw [hsc₃]
  dsimp only
  simp only [updateNodeHash_eq, hL₁l, hM₃l, hM₂l, hM₁l, hP₁l, HistoryTreeNode.mk']
  refine ⟨_, _, rfl, ?_⟩
  intro hmem
  simp only [List.mem_cons, List.not_mem_nil, or_false] at hmem
  rcases hmem with h | h | h
  · exact hne₁ h.symm
  · exact hself_ne_p h
  · exact hne₂ h.symm

/-! ### Error-reachability lemmas (C6) -/

section ErrorLemmas

variable {Hash : Type}



lemma lcpLenAux_le (a b : NodeLabel) : ∀ (fuel i : Nat), lcpLenAux a b fuel i ≤ i + fuel := by
  intro fuel
  induction fuel with
  | zero => intro i; simp [lcpLenAux]
  | succ fuel ih =>
    intro i
    unfold lcpLenAux
    split_ifs
    · calc lcpLenAux a b fuel (i + 1) ≤ (i + 1) + fuel := ih (i + 1)
        _ = i + (fuel + 1) := by omega
    · omega

lemma lcpLen_le_min (a b : NodeLabel) : lcpLen a b ≤ min a.len b.len := by
  simpa using lcpLenAux_le a b (min a.len b.len) 0

/-- In the split/descend dispatch on a node that is not the missing
leaf, the leaf's direction is never `None`: the leaf's 256-bit label
cannot be a proper prefix of a stored label. -/
lemma dir_other_isSome (x leaf : NodeLabel) (hx256 : x.len ≤ 256)
    (hcanon : x.canonical) (hleaf : leaf.len = 256) (hne : leaf ≠ x) :
    ∃ dl, getDir leaf (x.truncate (lcpLen x leaf)) = some dl := by
  unfold getDir
  by_cases h : leaf = x.truncate (lcpLen x leaf)
  · exfalso
    have hplen : (x.truncate (lcpLen x leaf)).len = lcpLen x leaf := rfl
    have h256 : lcpLen x leaf = 256 := by
      have := congrArg NodeLabel.len h
      rw [hplen] at this
      omega
    have hxlen : x.len = 256 := by
      have := lcpLen_le_min x leaf
      omega
    have : x.truncate (lcpLen x leaf) = x := by
      rw [h256, ← hxlen]
      exact hcanon
    exact hne (h.trans this)
  · rw [if_neg h]
    exact ⟨_, rfl⟩

/-- At a (canonical) root label, the self direction is always `None`:
the empty label is a prefix of everything. -/
lemma dir_self_of_root (x leaf : NodeLabel) (hx0 : x.len = 0)
    (hcanon : x.canonical) :
    getDir x (x.truncate (lcpLen x leaf)) = none := by
  have hk : lcpLen x leaf = 0 := by
    have := lcpLen_le_min x leaf
    omega
  have hx : x.truncate (lcpLen x leaf) = x := by
    rw [hk, ← hx0]
    exact hcanon
  rw [hx]
  unfold getDir
  rw [if_pos rfl]

/-- `get_child_state` on an explicit direction. -/
lemma getChildState_01 (store : Store Hash) (node : HistoryTreeNode Hash)
    (d : Nat) (hd : d = 0 ∨ d = 1) :
    getChildState store node (some d) =
      .ok ((if d = 0 then node.left_child else node.right_child).bind store) := by
  rcases hd with rfl | rfl
  · simpa using getChildState_left store node
  · simpa using getChildState_right store node

/-- `get_from_storage` either reports the missing key or returns the
stored record with at most its `last_epoch` overridden. -/
lemma getFromStorage_spec (epochLte : NodeLabel → Nat → Nat) (store : Store Hash)
    (key : NodeLabel) (epoch : Nat) :
    (store key = none ∧
      getFromStorage epochLte store key epoch = .error (.storageNotFound key)) ∨
    (∃ P v, store key = some P ∧ getFromStorage epochLte store key epoch = .ok v ∧
      v.label = P.label ∧ v.node_type = P.node_type ∧
      v.left_child = P.left_child ∧ v.right_child = P.right_child ∧
      v.parent = P.parent) := by
  cases h : store key with
  | none => exact Or.inl ⟨rfl, by simp [getFromStorage, h]⟩
  | some P =>
    refine Or.inr ⟨P, ?_⟩
    unfold getFromStorage
    rw [h]
    dsimp only
    split_ifs
    · exact ⟨_, rfl, rfl, rfl, rfl, rfl, rfl, rfl⟩
    · exact ⟨_, rfl, rfl, rfl, rfl, rfl, rfl, rfl⟩

/-- A node linked from one of its parent's slots has a direction there. -/
lemma getDirection_of_link {P self : HistoryTreeNode Hash}
    (h : P.left_child = some self.label ∨ P.right_child = some self.label) :
    ∃ pd, getDirection P self = some pd := by
  unfold getDirection
  by_cases hL : P.left_child = some self.label
  · rw [if_pos hL]
    exact ⟨0, rfl⟩
  · rw [if_neg hL]
    rcases h with h | h
    · exact absurd h hL
    · rw [if_pos h]
      exact ⟨1, rfl⟩

/-- The central error-reachability induction: on a well-formed store
that contains the visited node but not the inserted leaf's (256-bit)
label, `insert_single_leaf_helper` with sufficient fuel either
succeeds, fails with a storage `NotFound`, or fails with the structural
`NoChildAtEpoch` — the `NoDirection` error, the `panic!` sites, and
fuel exhaustion are all unreachable. -/
lemma insertHelper_no_panic (Hs : Hasher Hash)
    (epochLte : NodeLabel → Nat → Nat) :
    ∀ (fuel : Nat) (store : Store Hash) (self newLeaf : HistoryTreeNode Hash)
      (epoch : Nat) (hashing : Bool),
      wfStore store → store self.label = some self → store newLeaf.label = none →
      newLeaf.label.len = 256 → 257 ≤ fuel + self.label.len →
      okOrTreeError
        (insertSingleLeafHelper Hs epochLte fuel store self newLeaf epoch hashing) := by
  intro fuel
  induction fuel with
  | zero =>
    intro store self newLeaf epoch hashing hwf hself _ _ hfuel
    obtain ⟨_, hlen, _⟩ := hwf _ _ hself
    omega
  | succ fuel ih =>
    intro store self newLeaf epoch hashing hwf hself hmiss hleaf256 hfuel
    obtain ⟨-, hlen, hcanon, hroot0, hedge, hparlink⟩ := hwf _ _ hself
    have hneq : newLeaf.label ≠ self.label := by
      intro h
      rw [h, hself] at hmiss
      cases hmiss
    obtain ⟨dl, hdl⟩ := dir_other_isSome self.label newLeaf.label hlen hcanon hleaf256 hneq
    have hdl01 := getDir_some_val hdl
    by_cases hr : self.node_type = NodeType.Root
    · -- Root: bootstrap when the slot is empty, otherwise descend.
      have hds : getDir self.label
          (self.label.truncate (lcpLen self.label newLeaf.label)) = none :=
        dir_self_of_root _ _ (hroot0 hr) hcanon
      simp only [insertSingleLeafHelper, getLongestCommonPrefixAndDirs, hr, hdl, hds,
        getChildState_01 store self dl hdl01, bind, Except.bind, pure, Except.pure,
        eq_self_iff_true, if_true]
      cases hbs : (if dl = 0 then self.left_child else self.right_child).bind store with
      | none =>
        obtain ⟨S₁, L₁, hsc, -, -, -, -, -, -, -, -, -, -, -, -⟩ :=
          setChild_some store self newLeaf dl epoch
        rw [if_pos (by simp : ((none : Option (HistoryTreeNode Hash)).isNone = true))]
        rw [hsc]
        cases hashing <;>
          simp [updateNodeHash_eq, okOrTreeError, bind, Except.bind, pure, Except.pure]
      | some child =>
        rw [if_neg (by simp : ¬(((some child : Option (HistoryTreeNode Hash)).isNone = true)))]
        dsimp only
        obtain ⟨cl, hslot, hstorec⟩ := Option.bind_eq_some.mp hbs
        obtain ⟨hclabel, -, -, -, -, -⟩ := hwf cl child hstorec
        have hcs : store child.label = some child := by rw [hclabel]; exact hstorec
        have hor : self.left_child = some cl ∨ self.right_child = some cl := by
          rcases hdl01 with rfl | rfl
          · exact Or.inl (by simpa using hslot)
          · exact Or.inr (by simpa using hslot)
        have hlt : self.label.len < cl.len := hedge cl child hor hstorec
        have hfuel' : 257 ≤ fuel + child.label.len := by rw [hclabel]; omega
        have hrec := ih store child newLeaf epoch hashing hwf hcs hmiss hleaf256 hfuel'
        cases hR : insertSingleLeafHelper Hs epochLte fuel store child newLeaf epoch hashing with
        | error e =>
          rw [hR] at hrec
          exact hrec
        | ok v =>
          obtain ⟨store', c', n, trace⟩ := v
          dsimp only
          cases hashing
          · rcases getFromStorage_spec epochLte store' self.label epoch with
              ⟨-, heq⟩ | ⟨P, Pv, -, heq, -, -, -, -, -⟩ <;>
              simp [heq, okOrTreeError, bind, Except.bind]
          · rcases getFromStorage_spec epochLte store' self.label epoch with
              ⟨-, heq⟩ | ⟨P, Pv, -, heq, -, -, -, -, -⟩
            · simp [heq, okOrTreeError, bind, Except.bind]
            · rw [heq]
              dsimp only [bind, Except.bind]
              split_ifs <;>
                simp [updateNodeHash_eq, okOrTreeError, bind, Except.bind]
    · -- Non-root: split below the parent, or descend.
      simp only [insertSingleLeafHelper, getLongestCommonPrefixAndDirs, hr, hdl,
        bind, Except.bind, pure, Except.pure, if_false, eq_self_iff_true, if_true]
      cases hds : getDir self.label
          (self.label.truncate (lcpLen self.label newLeaf.label)) with
      | some d =>
        rcases getFromStorage_spec epochLte store self.parent epoch with
          ⟨-, heq⟩ | ⟨P, Pv, hsp, heq, hPl, hPt, hPlc, hPrc, hPp⟩
        · simp [heq, okOrTreeError, bind, Except.bind]
        · rw [heq]
          dsimp only
          have hlink := hparlink hr P hsp
          have hlink' : Pv.left_child = some self.label ∨
              Pv.right_child = some self.label := by
            rw [hPlc, hPrc]
            exact hlink
          obtain ⟨pd, hgd⟩ := getDirection_of_link hlink'
          rw [hgd]
          obtain ⟨P₁, M₁, hsc₁, -, -, -, -, -, -, -, -, -, -, -, -⟩ :=
            setChild_some store Pv
              (HistoryTreeNode.mk'
                (self.label.truncate (lcpLen self.label newLeaf.label)) Pv.label
                NodeType.Interior epoch none none Hs.zeroHash) pd epoch
          rw [hsc₁]
          dsimp only
          obtain ⟨M₂, L₁, hsc₂, -, -, -, -, -, -, -, -, -, -, -, -⟩ :=
            setChild_some (writeNode (writeNode store P₁) M₁) M₁ newLeaf dl epoch
          rw [hsc₂]
          dsimp only
          obtain ⟨M₃, S₁, hsc₃, -, -, -, -, -, -, -, -, -, -, -, -⟩ :=
            setChild_some (writeNode (writeNode (writeNode (writeNode store P₁) M₁) M₂) L₁)
              M₂ self d epoch
          rw [hsc₃]
          dsimp only
          cases hashing <;>
            simp [updateNodeHash_eq, okOrTreeError, bind, Except.bind]
      | none =>
        rw [getChildState_01 store self dl hdl01]
        dsimp only
        cases hbs : (if dl = 0 then self.left_child else self.right_child).bind store with
        | none =>
          simp [okOrTreeError]
        | some child =>
          dsimp only
          obtain ⟨cl, hslot, hstorec⟩ := Option.bind_eq_some.mp hbs
          obtain ⟨hclabel, -, -, -, -, -⟩ := hwf cl child hstorec
          have hcs : store child.label = some child := by rw [hclabel]; exact hstorec
          have hor : self.left_child = some cl ∨ self.right_child = some cl := by
            rcases hdl01 with rfl | rfl
            · exact Or.inl (by simpa using hslot)
            · exact Or.inr (by simpa using hslot)
          have hlt : self.label.len < cl.len := hedge cl child hor hstorec
          have hfuel' : 257 ≤ fuel + child.label.len := by rw [hclabel]; omega
          have hrec := ih store child newLeaf epoch hashing hwf hcs hmiss hleaf256 hfuel'
          cases hR : insertSingleLeafHelper Hs epochLte fuel store child newLeaf
              epoch hashing with
          | error e =>
            rw [hR] at hrec
            exact hrec
          | ok v =>
            obtain ⟨store', c', n, trace⟩ := v
            dsimp only
            cases hashing
            · rcases getFromStorage_spec epochLte store' self.label epoch with
                ⟨-, heq⟩ | ⟨P, Pv, -, heq, -, -, -, -, -⟩ <;>
                simp [heq, okOrTreeError, bind, Except.bind]
            · rcases getFromStorage_spec epochLte store' self.label epoch with
                ⟨-, heq⟩ | ⟨P, Pv, -, heq, -, -, -, -, -⟩
              · simp [heq, okOrTreeError, bind, Except.bind]
              · rw [heq]
                dsimp only [bind, Except.bind]
                split_ifs <;>
                  simp [updateNodeHash_eq, okOrTreeError, bind, Except.bind]

end ErrorLemmas

/-- C6: on a well-formed tree that does not already contain the
(256-bit) leaf label, a failing `insert_single_leaf`/`insert_leaf` call
returns only a storage error or the structural `NoChildAtEpoch`
(`NoDirection`, the `panic!` sites and fuel exhaustion are
unreachable); and in the descend case with the child slot in the
leaf's direction absent or dangling, the call fails with exactly
`NoChildAtEpoch`. -/
theorem insert_single_leaf_error_behavior {Hash : Type} (Hs : Hasher Hash)
    (epochLte : NodeLabel → Nat → Nat) (fuel : Nat) (store : Store Hash)
    (self newLeaf : HistoryTreeNode Hash) (epoch : Nat)
    (hwf : wfStore store) (hself : store self.label = some self)
    (hmiss : store newLeaf.label = none) (hleaf256 : newLeaf.label.len = 256)
    (hfuel : 257 ≤ fuel + self.label.len) :
    (∀ hashing,
      okOrTreeError
        (insertSingleLeafHelper Hs epochLte fuel store self newLeaf epoch hashing)) ∧
    (∀ (hashing : Bool) (dl fuel' : Nat),
      self.node_type ≠ NodeType.Root →
      (getLongestCommonPrefixAndDirs self.label newLeaf.label).2.2 = none →
      (getLongestCommonPrefixAndDirs self.label newLeaf.label).2.1 = some dl →
      (if dl = 0 then self.left_child else self.right_child).bind store = none →
      insertSingleLeafHelper Hs epochLte (fuel' + 1) store self newLeaf epoch hashing =
        .error (.noChildAtEpoch epoch dl)) := by
  constructor
  · intro hashing
    exact insertHelper_no_panic Hs epochLte fuel store self newLeaf epoch hashing
      hwf hself hmiss hleaf256 hfuel
  · intro hashing dl fuel' hnr hds hdl hslot
    have hds' : getDir self.label
        (self.label.truncate (lcpLen self.label newLeaf.label)) = none := hds
    have hdl' : getDir newLeaf.label
        (self.label.truncate (lcpLen self.label newLeaf.label)) = some dl := hdl
    have hdl01 := getDir_some_val hdl'
    simp only [insertSingleLeafHelper, getLongestCommonPrefixAndDirs, hnr, hds', hdl',
      getChildState_01 store self dl hdl01, bind, Except.bind, pure, Except.pure,
      if_false, eq_self_iff_true, if_true]
    rw [hslot]



lemma c6Store_wf : wfStore c6Store := by
  intro l n h
  unfold c6Store at h
  by_cases hl : l = NodeLabel.root
  · rw [if_pos hl] at h
    obtain rfl := Option.some.inj h
    subst hl
    refine ⟨rfl, by norm_num [NodeLabel.root],
      by show NodeLabel.root.truncate NodeLabel.root.len = NodeLabel.root; decide,
      fun _ => rfl, ?_, ?_⟩
    · intro cl c hor _
      rcases hor with h' | h' <;> cases h'
    · intro hne
      exact absurd rfl hne
  · rw [if_neg hl] at h
    cases h

/-- Witness for C6 at the lone-root store with fuel 257. -/
theorem insert_single_leaf_error_behavior_witness :
    ((∀ hashing,
      okOrTreeError
        (insertSingleLeafHelper natHasher (fun _ _ => 0) 257 c6Store c6Root c6Leaf 1
          hashing)) ∧
    (∀ (hashing : Bool) (dl fuel' : Nat),
      c6Root.node_type ≠ NodeType.Root →
      (getLongestCommonPrefixAndDirs c6Root.label c6Leaf.label).2.2 = none →
      (getLongestCommonPrefixAndDirs c6Root.label c6Leaf.label).2.1 = some dl →
      (if dl = 0 then c6Root.left_child else c6Root.right_child).bind c6Store = none →
      insertSingleLeafHelper natHasher (fun _ _ => 0) (fuel' + 1) c6Store c6Root c6Leaf 1
          hashing =
        .error (.noChildAtEpoch 1 dl))) :=
  insert_single_leaf_error_behavior natHasher (fun _ _ => 0) 257 c6Store c6Root c6Leaf 1
    c6Store_wf (by decide) (by decide) rfl (by norm_num [c6Root, NodeLabel.root])



/-- Witness for C3 at the concrete split: inserting `01₂` next to the
leaf `00₂` hashes the new leaf, then the new interior `0₂`, then the
root, and never re-hashes the pushed-down leaf. -/
theorem split_case_hash_order_witness :
    ∃ store' self',
      insertSingleLeafHelper natHasher (fun _ _ => 0) 1 c3Store c3Self c3Leaf 2 true =
        .ok (store', self', 1,
          [c3Leaf.label, (getLongestCommonPrefixAndDirs c3Self.label c3Leaf.label).1,
            c3Parent.label]) ∧
      c3Self.label ∉ ([c3Leaf.label,
        (getLongestCommonPrefixAndDirs c3Self.label c3Leaf.label).1,
        c3Parent.label] : List NodeLabel) :=
  split_case_hash_order natHasher (fun _ _ => 0) 0 c3Store c3Self c3Leaf c3Parent 2 0 1 0
    (by decide) (by decide) (by decide) (by decide) (by decide) (by decide) (by decide)
    (by decide)

/-! ### Quorum claims -/

namespace Quorum

section QuorumLemmas

variable {Hash Proof Shard Commitment PK : Type} [DecidableEq Hash]

/-- `timeoutChecks` never produces a commitment. -/
lemma timeoutChecks_fst_none (groupSize now startedAt : Nat)
    (map : List (Nat × Option (VerifyResponse Hash Shard)))
    (o : Option Commitment) (b : Bool)
    (h : timeoutChecks groupSize now startedAt map = .ok (o, b)) : o = none := by
  unfold timeoutChecks at h
  split_ifs at h <;>
    (simp only [Except.ok.injEq, Prod.mk.injEq] at h; exact h.1.symm)

/-- A nonempty list has a nonempty list of `k`-combinations whenever it
holds at least `k` elements. -/
lemma combinations_ne_nil {α : Type} :
    ∀ (k : Nat) (l : List α), k ≤ l.length → combinations k l ≠ [] := by
  intro k
  induction k with
  | zero => intro l _; simp [combinations]
  | succ k ih =>
    intro l hk
    match l with
    | [] => simp at hk
    | x :: xs =>
      simp only [combinations, ne_eq, List.append_eq_nil, List.map_eq_nil_iff, not_and]
      intro hmap
      exact absurd hmap (ih xs (by simpa using hk))

/-- If `try_generate_commitment` persisted a commitment, the shard
threshold was met, the commitment came from the first successful
`T`-subset in enumeration order, and the function reported the
operation finished. -/
lemma tryGenerateCommitment_some (shardsRequired : Nat → Nat)
    (gen : List Shard → Nat → Hash → Hash → Option Commitment)
    (groupSize now startedAt : Nat) (request : VerifyRequest Hash Proof)
    (map : List (Nat × Option (VerifyResponse Hash Shard))) (c : Commitment) (b : Bool)
    (h : tryGenerateCommitment shardsRequired gen groupSize now startedAt request map
      = .ok (some c, b)) :
    shardsRequired groupSize ≤ (positiveShards map).length ∧
    (combinations (shardsRequired groupSize) (positiveShards map)).findSome?
      (fun s => gen s request.epoch request.previous_hash request.new_hash) = some c ∧
    b = true := by
  simp only [tryGenerateCommitment] at h
  by_cases hT : shardsRequired groupSize ≤ (positiveShards map).length
  · rw [if_pos hT] at h
    cases hfs : (combinations (shardsRequired groupSize) (positiveShards map)).findSome?
        (fun s => gen s request.epoch request.previous_hash request.new_hash) with
    | some com =>
      rw [hfs] at h
      simp only [Except.ok.injEq, Prod.mk.injEq, Option.some.injEq] at h
      obtain ⟨hc, hb⟩ := h
      subst hc
      exact ⟨hT, rfl, hb.symm⟩
    | none =>
      rw [hfs] at h
      by_cases hemp : (combinations (shardsRequired groupSize) (positiveShards map)).isEmpty
      · rw [if_pos hemp] at h
        exact absurd (timeoutChecks_fst_none _ _ _ _ _ _ h) (by simp)
      · rw [if_neg hemp] at h
        cases h
  · rw [if_neg hT] at h
    exact absurd (timeoutChecks_fst_none _ _ _ _ _ _ h) (by simp)



lemma responsesMatch_upsert (request : VerifyRequest Hash Proof)
    (map : List (Nat × Option (VerifyResponse Hash Shard)))
    (fromId : Nat) (resp : VerifyResponse Hash Shard)
    (hresp : resp.verified_hash = request.new_hash)
    (hmap : responsesMatch request map) :
    responsesMatch request (upsert fromId (some resp) map) := by
  intro p hp r hr
  unfold upsert at hp
  split_ifs at hp with hany
  · obtain ⟨q, hq, hfq⟩ := List.mem_map.mp hp
    by_cases hqk : q.1 = fromId
    · rw [if_pos hqk] at hfq
      subst hfq
      simp only at hr
      exact (Option.some.inj hr) ▸ hresp
    · rw [if_neg hqk] at hfq
      subst hfq
      exact hmap q hq r hr
  · rcases List.mem_append.mp hp with hmem | hmem
    · exact hmap p hmem r hr
    · simp only [List.mem_singleton] at hmem
      subst hmem
      simp only at hr
      exact (Option.some.inj hr) ▸ hresp

end QuorumLemmas

end Quorum

/-- C2: a commitment is persisted through `save_commitment` by the
verification leader only if the response map it holds contains at least
`T = shards_required(group_size)` responses carrying a quorum-key shard
for the request (the incoming response is accepted only when its
`verified_hash` matches the request's `new_hash`); the persisted
commitment comes from the first `T`-subset of the collected shards for
which `generate_commitment` succeeds, and the leader then transitions
to Ready. -/
theorem commitment_persisted_only_with_threshold_shards
    {Hash Proof Shard Commitment PK : Type} [DecidableEq Hash]
    (shardsRequired : Nat → Nat)
    (gen : List Shard → Nat → Hash → Hash → Option Commitment)
    (groupSize now startedAt : Nat) (request : Quorum.VerifyRequest Hash Proof)
    (responseMap : List (Nat × Option (Quorum.VerifyResponse Hash Shard)))
    (queue : List (Quorum.NodeMessage Hash Proof Shard PK))
    (fromId : Nat) (resp : Quorum.VerifyResponse Hash Shard)
    (status' : Quorum.NodeStatus Hash Proof Shard PK)
    (queue' : List (Quorum.NodeMessage Hash Proof Shard PK)) (c : Commitment)
    (h : Quorum.verifyResponseImpl shardsRequired gen groupSize now
      (.leading (.processingVerification startedAt request responseMap)) queue fromId resp
      = .ok (status', queue', some c)) :
    resp.verified_hash = request.new_hash ∧
    shardsRequired groupSize ≤
      (Quorum.positiveShards (Quorum.upsert fromId (some resp) responseMap)).length ∧
    (Quorum.combinations (shardsRequired groupSize)
        (Quorum.positiveShards (Quorum.upsert fromId (some resp) responseMap))).findSome?
      (fun s => gen s request.epoch request.previous_hash request.new_hash) = some c ∧
    status' = .ready ∧
    (Quorum.responsesMatch request responseMap →
      Quorum.responsesMatch request (Quorum.upsert fromId (some resp) responseMap)) := by
  simp only [Quorum.verifyResponseImpl] at h
  by_cases hv : resp.verified_hash = request.new_hash
  · rw [if_pos hv] at h
    cases htry : (Quorum.tryGenerateCommitment shardsRequired gen
        groupSize now startedAt request (Quorum.upsert fromId (some resp) responseMap) :
        Except Unit (Option Commitment × Bool)) with
    | error e => rw [htry] at h; cases h
    | ok pair =>
      obtain ⟨saved, finished⟩ := pair
      rw [htry] at h
      cases finished with
      | true =>
        simp only [Except.ok.injEq, Prod.mk.injEq] at h
        obtain ⟨hst, _, hsaved⟩ := h
        rw [hsaved] at htry
        obtain ⟨h₁, h₂, _⟩ := Quorum.tryGenerateCommitment_some shardsRequired gen groupSize
          now startedAt request (Quorum.upsert fromId (some resp) responseMap) c true htry
        exact ⟨hv, h₁, h₂, hst.symm,
          Quorum.responsesMatch_upsert request responseMap fromId resp hv⟩
      | false =>
        simp only [Except.ok.injEq, Prod.mk.injEq] at h
        obtain ⟨_, _, hsaved⟩ := h
        rw [hsaved] at htry
        obtain ⟨_, _, hb⟩ := Quorum.tryGenerateCommitment_some shardsRequired gen groupSize
          now startedAt request (Quorum.upsert fromId (some resp) responseMap) c false htry
        simp at hb
  · rw [if_neg hv] at h
    simp only [Except.ok.injEq, Prod.mk.injEq] at h
    exact absurd h.2.2 (by simp)

/-- Witness for C2: group size 2 with threshold 1; one response carrying
shard 7 arrives and `generate_commitment` succeeds on `[7]`, persisting
commitment 42 and sending the leader to Ready. -/
theorem commitment_persisted_only_with_threshold_shards_witness :
    ((⟨1, some 7⟩ : Quorum.VerifyResponse Nat Nat).verified_hash =
        (⟨0, 1, (), 5⟩ : Quorum.VerifyRequest Nat Unit).new_hash ∧
      (fun _ => 1 : Nat → Nat) 2 ≤
        (Quorum.positiveShards (Quorum.upsert 1 (some ⟨1, some 7⟩) [])).length ∧
      (Quorum.combinations ((fun _ => 1 : Nat → Nat) 2)
          (Quorum.positiveShards (Quorum.upsert 1 (some ⟨1, some 7⟩) []))).findSome?
        (fun s => (fun s _ _ _ => if s = [7] then some 42 else none : List Nat → Nat → Nat → Nat → Option Nat) s
          (⟨0, 1, (), 5⟩ : Quorum.VerifyRequest Nat Unit).epoch
          (⟨0, 1, (), 5⟩ : Quorum.VerifyRequest Nat Unit).previous_hash
          (⟨0, 1, (), 5⟩ : Quorum.VerifyRequest Nat Unit).new_hash) = some 42 ∧
      (Quorum.NodeStatus.ready : Quorum.NodeStatus Nat Unit Nat Unit) = .ready ∧
      (Quorum.responsesMatch (⟨0, 1, (), 5⟩ : Quorum.VerifyRequest Nat Unit)
          ([] : List (Nat × Option (Quorum.VerifyResponse Nat Nat))) →
        Quorum.responsesMatch (⟨0, 1, (), 5⟩ : Quorum.VerifyRequest Nat Unit)
          (Quorum.upsert 1 (some ⟨1, some 7⟩) []))) :=
  commitment_persisted_only_with_threshold_shards
    (fun _ => 1) (fun s _ _ _ => if s = [7] then some 42 else none)
    2 0 0 ⟨0, 1, (), 5⟩ [] ([] : List (Quorum.NodeMessage Nat Unit Nat Unit))
    1 ⟨1, some 7⟩ .ready [] 42 rfl

/-- C4: `generate_test` is a stub: it returns the literal `false` for
`should_pass` on every invocation (it consults no randomness source, so
the outcome is a fixed constant across invocations, contradicting the
claimed random outcome), with an empty append-only proof and equal
previous/new hashes. -/
theorem generate_test_is_constant {Hash PK : Type}
    (hashBytes : List Nat → Hash) (pk pk' : PK) :
    (Quorum.generateTest hashBytes pk).1 = false ∧
    (Quorum.generateTest hashBytes pk).1 = (Quorum.generateTest hashBytes pk').1 ∧
    (Quorum.generateTest hashBytes pk).2.previous_hash =
      (Quorum.generateTest hashBytes pk).2.new_hash ∧
    (Quorum.generateTest hashBytes pk).2.test_proof =
      { unchanged_nodes := [], inserted := [] } :=
  ⟨rfl, rfl, rfl, rfl⟩

/-- C5: on a timer tick at or past `started_at + 10 min`, every
`Leading` substate is forced back to Ready; and the timeout branch of
`try_generate_commitment` finishes the operation without persisting any
commitment. -/
theorem leading_state_times_out_to_ready {Hash Proof Shard PK : Type}
    (lState : Quorum.LeaderState Hash Proof Shard PK) (now : Nat)
    (h : lState.startedAt + Quorum.distributedProcessingTimeoutSec ≤ now) :
    Quorum.timerTick now (.leading lState) = .ready ∧
    Quorum.distributedProcessingTimeoutSec = 600 ∧
    (∀ {Commitment : Type} (shardsRequired : Nat → Nat)
        (gen : List Shard → Nat → Hash → Hash → Option Commitment)
        (groupSize now' startedAt' : Nat) (request : Quorum.VerifyRequest Hash Proof)
        (map : List (Nat × Option (Quorum.VerifyResponse Hash Shard))),
      (Quorum.positiveShards map).length < shardsRequired groupSize →
      Quorum.distributedProcessingTimeoutSec < now' - startedAt' →
      Quorum.tryGenerateCommitment shardsRequired gen groupSize now' startedAt' request map
        = .ok (none, true)) := by
  refine ⟨?_, rfl, ?_⟩
  · cases lState <;>
      (simp only [Quorum.timerTick, Quorum.LeaderState.startedAt] at h ⊢;
        rw [if_pos (by omega)])
  · intro Commitment shardsRequired gen groupSize now' startedAt' request map hlt htime
    simp only [Quorum.tryGenerateCommitment]
    rw [if_neg (Nat.not_le.mpr hlt)]
    simp only [Quorum.timeoutChecks]
    rw [if_pos htime]

/-- Witness for C5: a leader that started processing a verification at
instant 0, ticked at instant 600. -/
theorem leading_state_times_out_to_ready_witness :
    (Quorum.timerTick 600 (.leading (.processingVerification 0
        (⟨0, 0, (), 0⟩ : Quorum.VerifyRequest Nat Unit)
        ([] : List (Nat × Option (Quorum.VerifyResponse Nat Nat))))) =
      (Quorum.NodeStatus.ready : Quorum.NodeStatus Nat Unit Nat Unit) ∧
      Quorum.distributedProcessingTimeoutSec = 600 ∧
      (∀ {Commitment : Type} (shardsRequired : Nat → Nat)
          (gen : List Nat → Nat → Nat → Nat → Option Commitment)
          (groupSize now' startedAt' : Nat) (request : Quorum.VerifyRequest Nat Unit)
          (map : List (Nat × Option (Quorum.VerifyResponse Nat Nat))),
        (Quorum.positiveShards map).length < shardsRequired groupSize →
        Quorum.distributedProcessingTimeoutSec < now' - startedAt' →
        Quorum.tryGenerateCommitment shardsRequired gen groupSize now' startedAt' request map
          = .ok (none, true))) :=
  leading_state_times_out_to_ready
    (Quorum.LeaderState.processingVerification 0 ⟨0, 0, (), 0⟩ [] :
      Quorum.LeaderState Nat Unit Nat Unit) 600
    (by norm_num [Quorum.LeaderState.startedAt, Quorum.distributedProcessingTimeoutSec])

/-- C7 (divergence evidence): a public operation arriving while the node
is busy is appended — in arrival order — to the backlog and the status
is unchanged; and the only Ready-restoring transition of the module,
the timer tick, returns to Ready without ever touching the backlog (no
code in the module reads or drains `message_queue`). -/
theorem public_messages_backlogged_but_never_drained :
    (∀ (now : Nat) (lS : Quorum.LeaderState Nat Unit Nat Unit)
        (queue : List (Quorum.NodeMessage Nat Unit Nat Unit))
        (r : Quorum.VerifyRequest Nat Unit),
      Quorum.publicVerifyImpl now (.leading lS) queue r =
        (.leading lS, queue ++ [.publicMsg (.verify r)])) ∧
    (∀ (now : Nat) (wS : Quorum.WorkerState Nat Unit Nat Unit)
        (queue : List (Quorum.NodeMessage Nat Unit Nat Unit))
        (r : Quorum.VerifyRequest Nat Unit),
      Quorum.publicVerifyImpl now (.following wS) queue r =
        (.following wS, queue ++ [.publicMsg (.verify r)])) ∧
    (∀ (now : Nat) (lS : Quorum.LeaderState Nat Unit Nat Unit)
        (queue : List (Quorum.NodeMessage Nat Unit Nat Unit)) (pk : Unit) (ci : Nat),
      Quorum.publicEnrollImpl now (.leading lS) queue pk ci =
        (.leading lS, queue ++ [.publicMsg (.enroll pk ci)])) ∧
    (∀ (now : Nat) (lS : Quorum.LeaderState Nat Unit Nat Unit)
        (queue : List (Quorum.NodeMessage Nat Unit Nat Unit)) (nid : Nat),
      Quorum.publicRemoveImpl now (.leading lS) queue nid =
        (.leading lS, queue ++ [.publicMsg (.remove nid)])) ∧
    (∀ (now : Nat) (status : Quorum.NodeStatus Nat Unit Nat Unit),
      Quorum.timerTick now status = .ready ∨ Quorum.timerTick now status = status) := by
  refine ⟨fun _ _ _ _ => rfl, fun _ _ _ _ => rfl, fun _ _ _ _ _ => rfl,
    fun _ _ _ _ => rfl, ?_⟩
  intro now status
  unfold Quorum.timerTick
  rcases status with _ | lS | wS
  · exact Or.inr rfl
  · cases lS <;> (dsimp only; split_ifs <;> simp)
  · cases wS <;> (dsimp only; first
      | exact Or.inr rfl
      | (split_ifs <;> simp))

end AkdSpec
